import Mathlib

/-!
# kaa::AvroByteArrayConverter

A shallow embedding of `kaa/common/AvroByteArrayConverter.hpp`.

The converter owns an `avro::EncoderPtr` and an `avro::DecoderPtr` and forwards every
conversion to the Avro C++ library.  The library is not part of the repository, so the
calls the converter makes into it (`binaryEncoder`, `jsonEncoder`, `Encoder::init`,
`avro::encode`, `Encoder::flush`, `binaryDecoder`, `jsonDecoder`, `Decoder::init`,
`avro::decode`, and the default constructor of `T`) are the fields of the structure
`Avro`, over which every converter operation is parametrised.  Three small concrete
libraries (`emptyDataLib`, `flagsLib`, `entryLib`) are given at the end of the
definitions; they are used to evaluate the converter on concrete inputs.

Conventions of the embedding:
* a `const boost::uint8_t*` is an `Option (List Byte)`: `none` is the null pointer and
  `some mem` a pointer to the readable bytes `mem`;
* an `std::ostream` is an `OStream`: the bytes of its sink, its put position and its
  state; writing goes to the put position and does nothing on a stream that is not good;
* a length that a caller passes as `dataSize` is converted to `boost::uint32_t` at the
  call (`toUInt32`); inside `fromByteArray`, `dataSize` is the value received;
* a C++ exception is the `.error` component of the result; since the codec objects and a
  record passed by reference are mutated even when the call throws, every operation
  also returns the state it leaves behind.
-/

namespace kaa

/-- One octet, `boost::uint8_t`. -/
abbrev Byte := Fin 256

/-- Dynamic type of a codec object: what `avro::binaryEncoder()` / `avro::binaryDecoder()`
build, or what `avro::jsonEncoder(schema)` / `avro::jsonDecoder(schema)` build. -/
inductive Format (Schema : Type) where
  | binary : Format Schema
  | json (schema : Schema) : Format Schema
  deriving DecidableEq, Repr

/-- Exceptions that leave the converter: the `KaaException` it throws itself and the
`avro::Exception` raised inside the library, each with its `what()` text. -/
inductive Exception where
  | KaaException (what : String) : Exception
  | avro (what : String) : Exception
  deriving DecidableEq, Repr

deriving instance DecidableEq for Except

/-- Effect of `avro::encode(*encoder_, datum)`: the encoder state afterwards, the bytes
that reached the bound output stream during the call, and the exception if one was
thrown. -/
structure EncodeResult (EncSt : Type) where
  state : EncSt
  written : List Byte
  error : Option String
  deriving DecidableEq, Repr

/-- Effect of `avro::decode(*decoder_, datum)`: the decoder state afterwards, the record
as the call left it (it is decoded through a reference), and the exception if one was
thrown. -/
structure DecodeResult (DecSt T : Type) where
  state : DecSt
  datum : T
  error : Option String
  deriving DecidableEq, Repr

/-- The Avro C++ library as seen from the converter, for one record type `T`.
`EncSt` and `DecSt` are the internal states of an encoder and of a decoder object; the
methods take the object's dynamic type (`Format`) for dispatch. -/
structure Avro (T Schema EncSt DecSt : Type) where
  /-- State of the object made by `avro::binaryEncoder()`. -/
  binaryEncoder : EncSt
  /-- State of the object made by `avro::jsonEncoder(schema)`. -/
  jsonEncoder : Schema → EncSt
  /-- State of the object made by `avro::binaryDecoder()`. -/
  binaryDecoder : DecSt
  /-- State of the object made by `avro::jsonDecoder(schema)`. -/
  jsonDecoder : Schema → DecSt
  /-- Method `Encoder::init(OutputStream&)`: binds the encoder to a new output stream. -/
  encoderInit : Format Schema → EncSt → EncSt
  /-- Call `avro::encode(Encoder&, const T&)`. -/
  encode : Format Schema → EncSt → T → EncodeResult EncSt
  /-- Method `Encoder::flush()`: the state afterwards and the bytes pushed to the stream. -/
  flush : Format Schema → EncSt → EncSt × List Byte
  /-- Method `Decoder::init(InputStream&)` on a memory input stream over the given bytes. -/
  decoderInit : Format Schema → DecSt → List Byte → DecSt
  /-- Call `avro::decode(Decoder&, T&)`. -/
  decode : Format Schema → DecSt → T → DecodeResult DecSt T
  /-- Value of a default-constructed `T` (`T datum;`). -/
  defaultDatum : T

/-- Object behind `avro::EncoderPtr`. -/
structure Encoder (Schema EncSt : Type) where
  format : Format Schema
  state : EncSt
  deriving DecidableEq, Repr

/-- Object behind `avro::DecoderPtr`. -/
structure Decoder (Schema DecSt : Type) where
  format : Format Schema
  state : DecSt
  deriving DecidableEq, Repr

/-- Modelled from the spec: `SharedDataBuffer` is declared in
`kaa/common/EndpointObjectHash.hpp`, which is not among the sources; the spec describes it
as an owned byte sequence (`first`) with an explicit length (`second`).  The length
component is taken to hold the size it is assigned without loss. -/
structure SharedDataBuffer where
  first : List Byte
  second : Nat
  deriving DecidableEq, Repr

/-- Private members of `AvroByteArrayConverter<T>`. -/
structure AvroByteArrayConverter (Schema EncSt DecSt : Type) where
  encoder_ : Encoder Schema EncSt
  decoder_ : Decoder Schema DecSt
  deriving DecidableEq, Repr

/-- Function `avro::memoryInputStream(data, dataSize)`: the first `dataSize` bytes at `data`. -/
def memoryInputStream (data : Option (List Byte)) (dataSize : Nat) : List Byte :=
  (data.getD []).take dataSize

/-- Conversion of a length to `boost::uint32_t`, as it happens when the length is passed
for the parameter `const boost::uint32_t& dataSize`. -/
def toUInt32 (n : Nat) : Nat := n % 4294967296

/-- An `std::ostream` over a seekable sink (`std::ostringstream`, `std::ofstream`): the
bytes the sink holds, the put position, and whether the stream is good (neither `failbit`
nor `badbit` set). -/
structure OStream where
  content : List Byte
  pos : Nat
  good : Bool
  deriving DecidableEq, Repr

/-- Declaration `std::ostringstream ostream;`: an empty, good stream. -/
def OStream.ostringstream : OStream := { content := [], pos := 0, good := true }

/-- Member `std::ostream::write`, through which `avro::ostreamOutputStream` hands its
bytes on: on a good stream the bytes go to the put position, replacing what the sink
holds there and extending the sink past its end, and the put position moves behind them;
a stream that is not good is left as it is. -/
def OStream.write (os : OStream) (bytes : List Byte) : OStream :=
  if os.good then
    let p := min os.pos os.content.length
    { os with
      content := os.content.take p ++ bytes ++ os.content.drop (p + bytes.length)
      pos := p + bytes.length }
  else os

/-- Member `std::ostringstream::str()`: the bytes of the sink. -/
def OStream.str (os : OStream) : List Byte := os.content

/-- What the in-place `fromByteArray` leaves behind. -/
structure FromByteArrayResult (T Schema EncSt DecSt : Type) where
  result : Except Exception Unit
  converter : AvroByteArrayConverter Schema EncSt DecSt
  datum : T

/-- What the stream `toByteArray` leaves behind. -/
structure ToStreamResult (Schema EncSt DecSt : Type) where
  result : Except Exception Unit
  converter : AvroByteArrayConverter Schema EncSt DecSt
  stream : OStream

namespace AvroByteArrayConverter

variable {T Schema EncSt DecSt : Type}

/-- Member `switchToJson(schema)`. -/
def switchToJson (lib : Avro T Schema EncSt DecSt)
    (_c : AvroByteArrayConverter Schema EncSt DecSt) (schema : Schema) :
    AvroByteArrayConverter Schema EncSt DecSt :=
  { encoder_ := { format := .json schema, state := lib.jsonEncoder schema }
    decoder_ := { format := .json schema, state := lib.jsonDecoder schema } }

/-- Member `switchToBinary()`. -/
def switchToBinary (lib : Avro T Schema EncSt DecSt)
    (_c : AvroByteArrayConverter Schema EncSt DecSt) :
    AvroByteArrayConverter Schema EncSt DecSt :=
  { encoder_ := { format := .binary, state := lib.binaryEncoder }
    decoder_ := { format := .binary, state := lib.binaryDecoder } }

/-- Constructor `AvroByteArrayConverter()`: its body is `switchToBinary()`, which assigns
both members without reading them. -/
def new (lib : Avro T Schema EncSt DecSt) : AvroByteArrayConverter Schema EncSt DecSt :=
  { encoder_ := { format := .binary, state := lib.binaryEncoder }
    decoder_ := { format := .binary, state := lib.binaryDecoder } }

/-- Member `T fromByteArray(const uint8_t* data, const uint32_t& dataSize)`; `dataSize`
is the value the parameter holds (a caller narrows a wider length with `toUInt32`). -/
def fromByteArray (lib : Avro T Schema EncSt DecSt)
    (c : AvroByteArrayConverter Schema EncSt DecSt)
    (data : Option (List Byte)) (dataSize : Nat) :
    Except Exception T × AvroByteArrayConverter Schema EncSt DecSt :=
  if data.isNone || dataSize == 0 then
    (.error (.KaaException "null data to decode"), c)
  else
    let datum := lib.defaultDatum
    let input := memoryInputStream data dataSize
    let d := lib.decoderInit c.decoder_.format c.decoder_.state input
    let r := lib.decode c.decoder_.format d datum
    let c' := { c with decoder_ := { c.decoder_ with state := r.state } }
    match r.error with
    | some e => (.error (.avro e), c')
    | none => (.ok r.datum, c')

/-- Member `void fromByteArray(const uint8_t* data, const uint32_t& dataSize, T& datum)`;
`dataSize` is the value the parameter holds. -/
def fromByteArrayInto (lib : Avro T Schema EncSt DecSt)
    (c : AvroByteArrayConverter Schema EncSt DecSt)
    (data : Option (List Byte)) (dataSize : Nat) (datum : T) :
    FromByteArrayResult T Schema EncSt DecSt :=
  if data.isNone || dataSize == 0 then
    { result := .error (.KaaException "null data to decode"), converter := c, datum := datum }
  else
    let input := memoryInputStream data dataSize
    let d := lib.decoderInit c.decoder_.format c.decoder_.state input
    let r := lib.decode c.decoder_.format d datum
    let c' := { c with decoder_ := { c.decoder_ with state := r.state } }
    match r.error with
    | some e => { result := .error (.avro e), converter := c', datum := r.datum }
    | none => { result := .ok (), converter := c', datum := r.datum }

/-- Member `SharedDataBuffer toByteArray(const T& datum)`. -/
def toByteArray (lib : Avro T Schema EncSt DecSt)
    (c : AvroByteArrayConverter Schema EncSt DecSt) (datum : T) :
    Except Exception SharedDataBuffer × AvroByteArrayConverter Schema EncSt DecSt :=
  let ostream : OStream := OStream.ostringstream
  let e := lib.encoderInit c.encoder_.format c.encoder_.state
  let r := lib.encode c.encoder_.format e datum
  let ostream := ostream.write r.written
  match r.error with
  | some what => (.error (.avro what), { c with encoder_ := { c.encoder_ with state := r.state } })
  | none =>
    let fl := lib.flush c.encoder_.format r.state
    let ostream := ostream.write fl.2
    let encodedData := ostream.str
    let encodedDataSize := encodedData.length
    let buffer : SharedDataBuffer := { first := encodedData, second := encodedDataSize }
    (.ok buffer, { c with encoder_ := { c.encoder_ with state := fl.1 } })

/-- Member `void toByteArray(const T& datum, std::ostream& stream)`. -/
def toByteArrayStream (lib : Avro T Schema EncSt DecSt)
    (c : AvroByteArrayConverter Schema EncSt DecSt) (datum : T) (stream : OStream) :
    ToStreamResult Schema EncSt DecSt :=
  let e := lib.encoderInit c.encoder_.format c.encoder_.state
  let r := lib.encode c.encoder_.format e datum
  let stream := stream.write r.written
  match r.error with
  | some what =>
    { result := .error (.avro what)
      converter := { c with encoder_ := { c.encoder_ with state := r.state } }
      stream := stream }
  | none =>
    let fl := lib.flush c.encoder_.format r.state
    { result := .ok ()
      converter := { c with encoder_ := { c.encoder_ with state := fl.1 } }
      stream := stream.write fl.2 }

end AvroByteArrayConverter

/-! ## Sequences of calls on one converter -/

/-- One call of a public member of the converter, with its arguments. -/
inductive Call (T Schema : Type) where
  | switchToJson (schema : Schema) : Call T Schema
  | switchToBinary : Call T Schema
  | toByteArray (datum : T) : Call T Schema
  | toByteArrayStream (datum : T) (stream : OStream) : Call T Schema
  | fromByteArray (data : Option (List Byte)) (dataSize : Nat) : Call T Schema
  | fromByteArrayInto (data : Option (List Byte)) (dataSize : Nat) (datum : T) : Call T Schema

/-- Tells whether the call is a conversion (an encode or a decode), not a switch. -/
def Call.isConversion {T Schema : Type} : Call T Schema → Bool
  | .switchToJson _ => false
  | .switchToBinary => false
  | _ => true

/-- State of the converter after the call, whether it returned or threw. -/
def Call.apply {T Schema EncSt DecSt : Type} (lib : Avro T Schema EncSt DecSt)
    (c : AvroByteArrayConverter Schema EncSt DecSt) :
    Call T Schema → AvroByteArrayConverter Schema EncSt DecSt
  | .switchToJson schema => AvroByteArrayConverter.switchToJson lib c schema
  | .switchToBinary => AvroByteArrayConverter.switchToBinary lib c
  | .toByteArray datum => (AvroByteArrayConverter.toByteArray lib c datum).2
  | .toByteArrayStream datum stream =>
      (AvroByteArrayConverter.toByteArrayStream lib c datum stream).converter
  | .fromByteArray data dataSize => (AvroByteArrayConverter.fromByteArray lib c data dataSize).2
  | .fromByteArrayInto data dataSize datum =>
      (AvroByteArrayConverter.fromByteArrayInto lib c data dataSize datum).converter

/-- State of a converter that was constructed and then received the calls, in order. -/
def run {T Schema EncSt DecSt : Type} (lib : Avro T Schema EncSt DecSt)
    (calls : List (Call T Schema)) : AvroByteArrayConverter Schema EncSt DecSt :=
  calls.foldl (Call.apply lib) (AvroByteArrayConverter.new lib)

/-- Format the caller asked for last: the one of the most recent switch among the calls,
starting from `current`. -/
def requestedFormat {T Schema : Type} (current : Format Schema) :
    List (Call T Schema) → Format Schema
  | [] => current
  | .switchToJson schema :: rest => requestedFormat (.json schema) rest
  | .switchToBinary :: rest => requestedFormat .binary rest
  | _ :: rest => requestedFormat current rest

/-! ## What the library does with a codec object, used to state the theorems -/

/-- Bytes an encoder in state `es` sends to its stream over `init`, `encode`, `flush`. -/
def Avro.emitted {T Schema EncSt DecSt : Type} (lib : Avro T Schema EncSt DecSt)
    (f : Format Schema) (es : EncSt) (v : T) : List Byte :=
  let r := lib.encode f (lib.encoderInit f es) v
  r.written ++ (lib.flush f r.state).2

/-- Effect of `init` on a memory input stream over `input` followed by `avro::decode` into
a default-constructed record, on a decoder in state `ds`. -/
def Avro.decoded {T Schema EncSt DecSt : Type} (lib : Avro T Schema EncSt DecSt)
    (f : Format Schema) (ds : DecSt) (input : List Byte) : DecodeResult DecSt T :=
  lib.decode f (lib.decoderInit f ds input) lib.defaultDatum

/-- What a caller receives from a function that returns the decoded record by value: the
record, or the exception of the decoder. -/
def DecodeResult.toExcept {DecSt T : Type} (r : DecodeResult DecSt T) : Except Exception T :=
  match r.error with
  | some what => .error (.avro what)
  | none => .ok r.datum

/-- Round trip inside the library, for one value and one format: whatever the earlier
state of the codec objects, encoding `v` after `init` does not throw, and decoding the
emitted bytes after `init` into a default-constructed record does not throw and gives
`v`. -/
def Avro.RoundTrips {T Schema EncSt DecSt : Type} (lib : Avro T Schema EncSt DecSt)
    (f : Format Schema) (v : T) : Prop :=
  ∀ (es : EncSt) (ds : DecSt),
    (lib.encode f (lib.encoderInit f es) v).error = none ∧
    (lib.decode f (lib.decoderInit f ds (lib.emitted f es v)) lib.defaultDatum).error = none ∧
    (lib.decode f (lib.decoderInit f ds (lib.emitted f es v)) lib.defaultDatum).datum = v

/-! ## Three concrete record types with their Avro codecs

The libraries keep in the encoder state the bytes buffered since `init` (nothing reaches
the stream before `flush`) and in the decoder state the input not yet consumed. -/

/-- Avro binary encoding of a `boolean`: one byte, 0 or 1. -/
def encodeBool (b : Bool) : List Byte := if b then [1] else [0]

/-- Method `BinaryDecoder::decodeBool`: reads one byte; fails at the end of the input and
on a byte other than 0 and 1. -/
def decodeBool : List Byte → Except String (Bool × List Byte)
  | [] => .error "EOF reached"
  | x :: rest =>
    if x = 0 then .ok (false, rest)
    else if x = 1 then .ok (true, rest)
    else .error "Invalid value for bool"

/-- Textual form of a boolean, the ASCII of `true` / `false`. -/
def jsonBool (b : Bool) : List Byte :=
  if b then [116, 114, 117, 101] else [102, 97, 108, 115, 101]

/-- Record with no fields: an Avro schema of type `record`, name `EmptyData`, whose
`fields` array is empty, and the `struct EmptyData` generated for it. -/
structure EmptyData where
  deriving DecidableEq, Repr

/-- Textual form of an `EmptyData`: an opening and a closing brace. -/
def EmptyData.json : List Byte := [123, 125]

/-- Codec of `EmptyData`: the binary form has no bytes at all; the textual decoder accepts
exactly the text the encoder writes. -/
def emptyDataLib : Avro EmptyData Unit (List Byte) (List Byte) where
  binaryEncoder := []
  jsonEncoder := fun _ => []
  binaryDecoder := []
  jsonDecoder := fun _ => []
  encoderInit := fun _ _ => []
  encode := fun f buffered _ =>
    match f with
    | .binary => { state := buffered, written := [], error := none }
    | .json _ => { state := buffered ++ EmptyData.json, written := [], error := none }
  flush := fun _ buffered => ([], buffered)
  decoderInit := fun _ _ input => input
  decode := fun f input datum =>
    match f with
    | .binary => { state := input, datum := datum, error := none }
    | .json _ =>
      if input = EmptyData.json then { state := [], datum := datum, error := none }
      else { state := input, datum := datum, error := some "Unexpected token" }
  defaultDatum := {}

/-- Record with two boolean fields: an Avro schema of type `record`, name `Flags`, with
the fields `a` and `b` of type `boolean`, and the `struct Flags` generated for it. -/
structure Flags where
  a : Bool
  b : Bool
  deriving DecidableEq, Repr

/-- Generated `codec_traits<Flags>::encode` on a binary encoder: the fields in order. -/
def Flags.encodeBinary (v : Flags) : List Byte := encodeBool v.a ++ encodeBool v.b

/-- Generated `codec_traits<Flags>::decode` on a binary decoder: each field is decoded
straight into the record, in order, and the first error stops the call. -/
def Flags.decodeBinary (input : List Byte) (v : Flags) : DecodeResult (List Byte) Flags :=
  match decodeBool input with
  | .error what => { state := input, datum := v, error := some what }
  | .ok (a, rest) =>
    let v := { v with a := a }
    match decodeBool rest with
    | .error what => { state := rest, datum := v, error := some what }
    | .ok (b, rest) => { state := rest, datum := { v with b := b }, error := none }

/-- Textual form of a `Flags`: an opening brace, `"a":`, the value of `a`, `,"b":`, the
value of `b`, a closing brace, in ASCII. -/
def Flags.json (v : Flags) : List Byte :=
  [123, 34, 97, 34, 58] ++ jsonBool v.a ++ [44, 34, 98, 34, 58] ++ jsonBool v.b ++ [125]

/-- Textual decoder of `Flags`: accepts exactly the texts the encoder writes. -/
def Flags.decodeJson (input : List Byte) (v : Flags) : DecodeResult (List Byte) Flags :=
  match [Flags.mk false false, Flags.mk false true, Flags.mk true false,
      Flags.mk true true].find? (fun w => decide (w.json = input)) with
  | some w => { state := [], datum := w, error := none }
  | none => { state := input, datum := v, error := some "Unexpected token" }

/-- Codec of `Flags`. -/
def flagsLib : Avro Flags Unit (List Byte) (List Byte) where
  binaryEncoder := []
  jsonEncoder := fun _ => []
  binaryDecoder := []
  jsonDecoder := fun _ => []
  encoderInit := fun _ _ => []
  encode := fun f buffered v =>
    match f with
    | .binary => { state := buffered ++ v.encodeBinary, written := [], error := none }
    | .json _ => { state := buffered ++ v.json, written := [], error := none }
  flush := fun _ buffered => ([], buffered)
  decoderInit := fun _ _ input => input
  decode := fun f input datum =>
    match f with
    | .binary => Flags.decodeBinary input datum
    | .json _ => Flags.decodeJson input datum
  defaultDatum := { a := false, b := false }

/-- Zig-zag coding of an Avro `int` or `long`: 0, -1, 1, -2, ... become 0, 1, 2, 3, ... -/
def zigzag (n : Int) : Nat := if 0 ≤ n then 2 * n.toNat else 2 * (-n).toNat - 1

/-- Inverse of the zig-zag coding. -/
def unzigzag (n : Nat) : Int :=
  if n % 2 = 0 then Int.ofNat (n / 2) else - Int.ofNat ((n + 1) / 2)

/-- Variable-length coding of Avro: seven bits a byte, the low bits first, the high bit
set on every byte but the last; `more` bounds the number of bytes after the first. -/
def encodeVarint : Nat → Nat → List Byte
  | 0, n => [Fin.ofNat (n % 128)]
  | more + 1, n =>
    if n < 128 then [Fin.ofNat n]
    else Fin.ofNat (n % 128 + 128) :: encodeVarint more (n / 128)

/-- Method `BinaryEncoder::encodeLong` (and `encodeInt`, which writes the same bytes for
a value both can hold): at most ten bytes. -/
def encodeLong (n : Int) : List Byte := encodeVarint 9 (zigzag n)

/-- Reads one variable-length number of at most `limit` bytes. -/
def decodeVarint : Nat → List Byte → Except String (Nat × List Byte)
  | 0, _ => .error "Invalid Avro varint"
  | _ + 1, [] => .error "EOF reached"
  | limit + 1, x :: rest =>
    if x.val < 128 then .ok (x.val, rest)
    else
      match decodeVarint limit rest with
      | .error what => .error what
      | .ok (n, rest) => .ok (x.val - 128 + 128 * n, rest)

/-- Method `BinaryDecoder::decodeLong` (and `decodeInt`). -/
def decodeLong (input : List Byte) : Except String (Int × List Byte) :=
  match decodeVarint 10 input with
  | .error what => .error what
  | .ok (n, rest) => .ok (unzigzag n, rest)

/-- Record with an `int` field `a` and a `string` field `b`, and the `struct Entry`
generated for it; the string is held as its bytes. -/
structure Entry where
  a : Int
  b : List Byte
  deriving DecidableEq, Repr

/-- Generated `codec_traits<Entry>::encode` on a binary encoder: `a`, then the length of
`b`, then the bytes of `b`. -/
def Entry.encodeBinary (v : Entry) : List Byte :=
  encodeLong v.a ++ encodeLong (Int.ofNat v.b.length) ++ v.b

/-- Generated `codec_traits<Entry>::decode` on a binary decoder: each field is decoded
straight into the record, in order.  The string is resized to the announced length and
then filled from the input, so an input that ends early leaves it half filled. -/
def Entry.decodeBinary (input : List Byte) (v : Entry) : DecodeResult (List Byte) Entry :=
  match decodeLong input with
  | .error what => { state := input, datum := v, error := some what }
  | .ok (a, rest) =>
    let v := { v with a := a }
    match decodeLong rest with
    | .error what => { state := rest, datum := v, error := some what }
    | .ok (len, rest) =>
      if len < 0 then { state := rest, datum := v, error := some "Invalid string length" }
      else if rest.length < len.toNat then
        let resized := (v.b ++ List.replicate (len.toNat - v.b.length) 0).take len.toNat
        { state := [], datum := { v with b := rest ++ resized.drop rest.length },
          error := some "EOF reached" }
      else
        { state := rest.drop len.toNat, datum := { v with b := rest.take len.toNat },
          error := none }

/-- Removes the expected bytes from the front of the input, if they are there. -/
def stripLiteral : List Byte → List Byte → Option (List Byte)
  | [], input => some input
  | _ :: _, [] => none
  | x :: literal, y :: input => if x = y then stripLiteral literal input else none

/-- Decimal digits of a number of at most `more` digits, in ASCII, before `digits`. -/
def decimalDigits : Nat → Nat → List Byte → List Byte
  | 0, _, digits => digits
  | more + 1, n, digits =>
    if n < 10 then Fin.ofNat (48 + n) :: digits
    else decimalDigits more (n / 10) (Fin.ofNat (48 + n % 10) :: digits)

/-- Textual form of an `int` or `long`. -/
def jsonInt (n : Int) : List Byte :=
  if 0 ≤ n then decimalDigits 20 n.toNat [] else 45 :: decimalDigits 20 (-n).toNat []

/-- Tells whether the byte is an ASCII digit. -/
def isDigit (x : Byte) : Bool := 48 ≤ x.val && x.val ≤ 57

/-- Reads a decimal number with an optional minus sign. -/
def readJsonInt (input : List Byte) : Option (Int × List Byte) :=
  let negative := input.head? = some 45
  let input := if negative then input.drop 1 else input
  let digits := input.takeWhile isDigit
  if digits = [] then none
  else
    let n := digits.foldl (fun acc x => 10 * acc + (x.val - 48)) 0
    some (if negative then - Int.ofNat n else Int.ofNat n, input.dropWhile isDigit)

/-- Textual form of the inside of a string: a backslash before a quote or a backslash. -/
def jsonEscape : List Byte → List Byte
  | [] => []
  | x :: rest => if x = 34 ∨ x = 92 then 92 :: x :: jsonEscape rest else x :: jsonEscape rest

/-- Reads the inside of a string up to the closing quote, which it consumes. -/
def readJsonString : Nat → List Byte → Option (List Byte × List Byte)
  | 0, _ => none
  | _ + 1, [] => none
  | limit + 1, x :: rest =>
    if x = 34 then some ([], rest)
    else if x = 92 then
      match rest with
      | [] => none
      | y :: rest =>
        if y = 34 ∨ y = 92 then
          match readJsonString limit rest with
          | none => none
          | some (text, rest) => some (y :: text, rest)
        else none
    else
      match readJsonString limit rest with
      | none => none
      | some (text, rest) => some (x :: text, rest)

/-- Textual form of an `Entry`: an opening brace, `"a":`, the number, `,"b":"`, the
string, a quote and a closing brace, in ASCII. -/
def Entry.json (v : Entry) : List Byte :=
  [123, 34, 97, 34, 58] ++ jsonInt v.a ++ [44, 34, 98, 34, 58, 34] ++ jsonEscape v.b
    ++ [34, 125]

/-- Textual decoder of `Entry`: reads the text the encoder writes, each field straight
into the record, in order. -/
def Entry.decodeJson (input : List Byte) (v : Entry) : DecodeResult (List Byte) Entry :=
  match stripLiteral [123, 34, 97, 34, 58] input with
  | none => { state := input, datum := v, error := some "Incorrect token in the stream" }
  | some rest =>
    match readJsonInt rest with
    | none => { state := rest, datum := v, error := some "Incorrect token in the stream" }
    | some (a, rest) =>
      let v := { v with a := a }
      match stripLiteral [44, 34, 98, 34, 58, 34] rest with
      | none => { state := rest, datum := v, error := some "Incorrect token in the stream" }
      | some rest =>
        match readJsonString (rest.length + 1) rest with
        | none => { state := rest, datum := v, error := some "Unexpected EOF" }
        | some (b, rest) =>
          let v := { v with b := b }
          match stripLiteral [125] rest with
          | none =>
            { state := rest, datum := v, error := some "Incorrect token in the stream" }
          | some rest => { state := rest, datum := v, error := none }

/-- Codec of `Entry`. -/
def entryLib : Avro Entry Unit (List Byte) (List Byte) where
  binaryEncoder := []
  jsonEncoder := fun _ => []
  binaryDecoder := []
  jsonDecoder := fun _ => []
  encoderInit := fun _ _ => []
  encode := fun f buffered v =>
    match f with
    | .binary => { state := buffered ++ v.encodeBinary, written := [], error := none }
    | .json _ => { state := buffered ++ v.json, written := [], error := none }
  flush := fun _ buffered => ([], buffered)
  decoderInit := fun _ _ input => input
  decode := fun f input datum =>
    match f with
    | .binary => Entry.decodeBinary input datum
    | .json _ => Entry.decodeJson input datum
  defaultDatum := { a := 0, b := [] }

/-! ## Theorems -/

/-- Two writes in a row are one write of the bytes in a row. -/
theorem OStream.write_write (os : OStream) (a b : List Byte) :
    (os.write a).write b = os.write (a ++ b) := by
  unfold OStream.write
  cases hg : os.good with
  | false => simp [hg]
  | true =>
    simp only [if_true]
    have hp : min os.pos os.content.length ≤ os.content.length := Nat.min_le_right _ _
    generalize min os.pos os.content.length = p at hp ⊢
    have hlen : (List.take p os.content ++ a).length = p + a.length := by
      simp [List.length_take, Nat.min_eq_left hp]
    have hmin : min (p + a.length)
        (List.take p os.content ++ a ++ List.drop (p + a.length) os.content).length
        = p + a.length := by
      apply Nat.min_eq_left
      rw [List.length_append, hlen]
      exact Nat.le_add_right _ _
    simp only [hmin]
    have htake : List.take (p + a.length)
        (List.take p os.content ++ a ++ List.drop (p + a.length) os.content)
        = List.take p os.content ++ a := by
      rw [← hlen]
      exact List.take_left' rfl
    have hdrop : List.drop (p + a.length + b.length)
        (List.take p os.content ++ a ++ List.drop (p + a.length) os.content)
        = List.drop (p + (a ++ b).length) os.content := by
      rw [List.drop_append_eq_append_drop, hlen]
      have h1 : List.drop (p + a.length + b.length) (List.take p os.content ++ a) = [] := by
        apply List.drop_eq_nil_of_le
        rw [hlen]
        exact Nat.le_add_right _ _
      rw [h1, List.nil_append, List.drop_drop, List.length_append]
      congr 1
      omega
    rw [htake, hdrop]
    simp [List.append_assoc, Nat.add_assoc]

/-- A new string stream holds exactly what was written to it. -/
theorem OStream.ostringstream_write (bytes : List Byte) :
    (OStream.ostringstream.write bytes).str = bytes := by
  simp [OStream.write, OStream.ostringstream, OStream.str]

namespace AvroByteArrayConverter

variable {T Schema EncSt DecSt : Type}

/-- The guard of both `fromByteArray` overloads, as a proposition. -/
theorem guard_eq_true_iff (data : Option (List Byte)) (dataSize : Nat) :
    (data.isNone || dataSize == 0) = true ↔ (data = none ∨ dataSize = 0) := by
  cases data <;> simp

/-- When the guard holds, the value-returning overload throws and touches nothing. -/
theorem fromByteArray_of_guard (lib : Avro T Schema EncSt DecSt)
    (c : AvroByteArrayConverter Schema EncSt DecSt) (data : Option (List Byte))
    (dataSize : Nat) (h : data = none ∨ dataSize = 0) :
    fromByteArray lib c data dataSize = (.error (.KaaException "null data to decode"), c) := by
  unfold fromByteArray
  rw [if_pos ((guard_eq_true_iff data dataSize).2 h)]

/-- When the guard holds, the in-place overload throws and touches nothing. -/
theorem fromByteArrayInto_of_guard (lib : Avro T Schema EncSt DecSt)
    (c : AvroByteArrayConverter Schema EncSt DecSt) (data : Option (List Byte))
    (dataSize : Nat) (datum : T) (h : data = none ∨ dataSize = 0) :
    fromByteArrayInto lib c data dataSize datum
      = { result := .error (.KaaException "null data to decode"), converter := c,
          datum := datum } := by
  unfold fromByteArrayInto
  rw [if_pos ((guard_eq_true_iff data dataSize).2 h)]

/-- Past the guard, the value-returning overload is `init` followed by `avro::decode` into
a default-constructed record. -/
theorem fromByteArray_of_valid (lib : Avro T Schema EncSt DecSt)
    (c : AvroByteArrayConverter Schema EncSt DecSt) (data : Option (List Byte))
    (dataSize : Nat) (h : ¬ (data = none ∨ dataSize = 0)) :
    fromByteArray lib c data dataSize =
      (match (lib.decode c.decoder_.format (lib.decoderInit c.decoder_.format c.decoder_.state
          (memoryInputStream data dataSize)) lib.defaultDatum).error with
        | some e => .error (.avro e)
        | none => .ok (lib.decode c.decoder_.format (lib.decoderInit c.decoder_.format
            c.decoder_.state (memoryInputStream data dataSize)) lib.defaultDatum).datum,
       { c with decoder_ := { c.decoder_ with state :=
          (lib.decode c.decoder_.format (lib.decoderInit c.decoder_.format c.decoder_.state
            (memoryInputStream data dataSize)) lib.defaultDatum).state } }) := by
  unfold fromByteArray
  rw [if_neg (fun hg => h ((guard_eq_true_iff data dataSize).1 hg))]
  dsimp only
  split <;> rfl

/-- Past the guard, the in-place overload is `init` followed by `avro::decode` into the
caller's record. -/
theorem fromByteArrayInto_of_valid (lib : Avro T Schema EncSt DecSt)
    (c : AvroByteArrayConverter Schema EncSt DecSt) (data : Option (List Byte))
    (dataSize : Nat) (datum : T) (h : ¬ (data = none ∨ dataSize = 0)) :
    fromByteArrayInto lib c data dataSize datum =
      { result :=
          match (lib.decode c.decoder_.format (lib.decoderInit c.decoder_.format
              c.decoder_.state (memoryInputStream data dataSize)) datum).error with
          | some e => .error (.avro e)
          | none => .ok ()
        converter := { c with decoder_ := { c.decoder_ with state :=
          (lib.decode c.decoder_.format (lib.decoderInit c.decoder_.format c.decoder_.state
            (memoryInputStream data dataSize)) datum).state } }
        datum := (lib.decode c.decoder_.format (lib.decoderInit c.decoder_.format
          c.decoder_.state (memoryInputStream data dataSize)) datum).datum } := by
  unfold fromByteArrayInto
  rw [if_neg (fun hg => h ((guard_eq_true_iff data dataSize).1 hg))]
  dsimp only
  split <;> rfl

/-- The buffer overload of `toByteArray` in terms of the library calls. -/
theorem toByteArray_eq (lib : Avro T Schema EncSt DecSt)
    (c : AvroByteArrayConverter Schema EncSt DecSt) (v : T) :
    toByteArray lib c v =
      match (lib.encode c.encoder_.format
          (lib.encoderInit c.encoder_.format c.encoder_.state) v).error with
      | some what =>
        (.error (.avro what), { c with encoder_ := { c.encoder_ with state :=
          (lib.encode c.encoder_.format
            (lib.encoderInit c.encoder_.format c.encoder_.state) v).state } })
      | none =>
        (.ok { first := lib.emitted c.encoder_.format c.encoder_.state v
               second := (lib.emitted c.encoder_.format c.encoder_.state v).length },
         { c with encoder_ := { c.encoder_ with state :=
          (lib.flush c.encoder_.format (lib.encode c.encoder_.format
            (lib.encoderInit c.encoder_.format c.encoder_.state) v).state).1 } }) := by
  unfold toByteArray Avro.emitted
  dsimp only
  split
  · rfl
  · rw [OStream.write_write, OStream.ostringstream_write]

/-- The stream overload of `toByteArray` in terms of the library calls. -/
theorem toByteArrayStream_eq (lib : Avro T Schema EncSt DecSt)
    (c : AvroByteArrayConverter Schema EncSt DecSt) (v : T) (stream : OStream) :
    toByteArrayStream lib c v stream =
      match (lib.encode c.encoder_.format
          (lib.encoderInit c.encoder_.format c.encoder_.state) v).error with
      | some what =>
        { result := .error (.avro what)
          converter := { c with encoder_ := { c.encoder_ with state :=
            (lib.encode c.encoder_.format
              (lib.encoderInit c.encoder_.format c.encoder_.state) v).state } }
          stream := stream.write (lib.encode c.encoder_.format
            (lib.encoderInit c.encoder_.format c.encoder_.state) v).written }
      | none =>
        { result := .ok ()
          converter := { c with encoder_ := { c.encoder_ with state :=
            (lib.flush c.encoder_.format (lib.encode c.encoder_.format
              (lib.encoderInit c.encoder_.format c.encoder_.state) v).state).1 } }
          stream := stream.write (lib.emitted c.encoder_.format c.encoder_.state v) } := by
  unfold toByteArrayStream Avro.emitted
  dsimp only
  split
  · rfl
  · rw [OStream.write_write]

/-- The constructor leaves what `switchToBinary()` leaves, whatever was there before. -/
theorem switchToBinary_eq_new (lib : Avro T Schema EncSt DecSt)
    (c : AvroByteArrayConverter Schema EncSt DecSt) : switchToBinary lib c = new lib := rfl

/-- Claim C1: each `fromByteArray` overload throws a `KaaException` exactly when the
pointer is null or the length is 0; in that case it returns no value, leaves the
converter (hence the decoder) as it was, and leaves the caller's record as it was. -/
theorem fromByteArray_invalid_input_iff (lib : Avro T Schema EncSt DecSt)
    (c : AvroByteArrayConverter Schema EncSt DecSt) (data : Option (List Byte))
    (dataSize : Nat) (datum : T) :
    ((∃ what, (fromByteArray lib c data dataSize).1 = .error (.KaaException what))
        ↔ (data = none ∨ dataSize = 0)) ∧
    ((∃ what, (fromByteArrayInto lib c data dataSize datum).result
          = .error (.KaaException what))
        ↔ (data = none ∨ dataSize = 0)) ∧
    ((data = none ∨ dataSize = 0) →
        (∀ value, (fromByteArray lib c data dataSize).1 ≠ .ok value) ∧
        (fromByteArray lib c data dataSize).2 = c ∧
        (fromByteArrayInto lib c data dataSize datum).result ≠ .ok () ∧
        (fromByteArrayInto lib c data dataSize datum).converter = c ∧
        (fromByteArrayInto lib c data dataSize datum).datum = datum) := by
  refine ⟨⟨?_, ?_⟩, ⟨?_, ?_⟩, ?_⟩
  · rintro ⟨what, hw⟩
    by_contra h
    rw [fromByteArray_of_valid lib c data dataSize h] at hw
    dsimp only at hw
    split at hw <;> simp at hw
  · intro h
    exact ⟨_, by rw [fromByteArray_of_guard lib c data dataSize h]⟩
  · rintro ⟨what, hw⟩
    by_contra h
    rw [fromByteArrayInto_of_valid lib c data dataSize datum h] at hw
    dsimp only at hw
    split at hw <;> simp at hw
  · intro h
    exact ⟨_, by rw [fromByteArrayInto_of_guard lib c data dataSize datum h]⟩
  · intro h
    rw [fromByteArray_of_guard lib c data dataSize h,
      fromByteArrayInto_of_guard lib c data dataSize datum h]
    simp

/-- A buffer returned by `toByteArray` holds the emitted bytes and their number. -/
theorem toByteArray_ok_buffer (lib : Avro T Schema EncSt DecSt)
    (c : AvroByteArrayConverter Schema EncSt DecSt) (v : T) (buffer : SharedDataBuffer)
    (h : (toByteArray lib c v).1 = .ok buffer) :
    buffer = { first := lib.emitted c.encoder_.format c.encoder_.state v
               second := (lib.emitted c.encoder_.format c.encoder_.state v).length } := by
  rw [toByteArray_eq] at h
  split at h
  · simp at h
  · simp only [Except.ok.injEq] at h
    exact h.symm

/-- Claim C3: when `toByteArray` returns a buffer, its contents are the bytes the encoder
sent to the in-memory stream over `init`, `encode`, `flush`, in order, and its length
component is their number; it returns one whenever `avro::encode` does not throw; an
empty payload gives length 0. -/
theorem toByteArray_buffer_exact (lib : Avro T Schema EncSt DecSt)
    (c : AvroByteArrayConverter Schema EncSt DecSt) (v : T) :
    (∀ buffer, (toByteArray lib c v).1 = .ok buffer →
        buffer.first = lib.emitted c.encoder_.format c.encoder_.state v ∧
        buffer.second = (lib.emitted c.encoder_.format c.encoder_.state v).length) ∧
    ((lib.encode c.encoder_.format
          (lib.encoderInit c.encoder_.format c.encoder_.state) v).error = none →
        ∃ buffer, (toByteArray lib c v).1 = .ok buffer) ∧
    (∀ buffer, (toByteArray lib c v).1 = .ok buffer →
        lib.emitted c.encoder_.format c.encoder_.state v = [] → buffer.second = 0) := by
  refine ⟨?_, ?_, ?_⟩
  · intro buffer hb
    rw [toByteArray_ok_buffer lib c v buffer hb]
    exact ⟨rfl, rfl⟩
  · intro hnone
    rw [toByteArray_eq, hnone]
    exact ⟨_, rfl⟩
  · intro buffer hb hempty
    rw [toByteArray_ok_buffer lib c v buffer hb]
    simp [hempty]

/-- Claim C4, as the code has it: when `fromByteArray` rejects a null or zero-length
input, the `KaaException` of either overload carries the text "null data to decode". -/
theorem fromByteArray_invalid_input_message (lib : Avro T Schema EncSt DecSt)
    (c : AvroByteArrayConverter Schema EncSt DecSt) (data : Option (List Byte))
    (dataSize : Nat) (datum : T) (h : data = none ∨ dataSize = 0) :
    (fromByteArray lib c data dataSize).1 = .error (.KaaException "null data to decode") ∧
    (fromByteArrayInto lib c data dataSize datum).result
      = .error (.KaaException "null data to decode") := by
  rw [fromByteArray_of_guard lib c data dataSize h,
    fromByteArrayInto_of_guard lib c data dataSize datum h]
  exact ⟨rfl, rfl⟩

/-- Claim C5: on every input and in every converter state, the in-place overload applied
to a default-constructed record and the value-returning overload agree: they throw the
same exception or both succeed, the record left by the former is the value returned by
the latter, and they leave the converter in the same state. -/
theorem fromByteArrayInto_default_eq_fromByteArray (lib : Avro T Schema EncSt DecSt)
    (c : AvroByteArrayConverter Schema EncSt DecSt) (data : Option (List Byte))
    (dataSize : Nat) :
    (fromByteArray lib c data dataSize).1 =
        (match (fromByteArrayInto lib c data dataSize lib.defaultDatum).result with
          | .ok () => .ok (fromByteArrayInto lib c data dataSize lib.defaultDatum).datum
          | .error e => .error e) ∧
    (fromByteArray lib c data dataSize).2 =
        (fromByteArrayInto lib c data dataSize lib.defaultDatum).converter ∧
    (∀ e, (fromByteArray lib c data dataSize).1 = .error e ↔
        (fromByteArrayInto lib c data dataSize lib.defaultDatum).result = .error e) := by
  by_cases h : data = none ∨ dataSize = 0
  · rw [fromByteArray_of_guard lib c data dataSize h,
      fromByteArrayInto_of_guard lib c data dataSize lib.defaultDatum h]
    simp
  · rw [fromByteArray_of_valid lib c data dataSize h,
      fromByteArrayInto_of_valid lib c data dataSize lib.defaultDatum h]
    dsimp only
    cases (lib.decode c.decoder_.format (lib.decoderInit c.decoder_.format c.decoder_.state
      (memoryInputStream data dataSize)) lib.defaultDatum).error <;> simp

/-- Claim C8, as the code has it: past the guard, the in-place overload leaves in the
caller's record whatever `avro::decode` left there, also when it throws, and it throws
exactly the exception of `avro::decode`; the value-returning overload returns no value
when `avro::decode` throws. -/
theorem fromByteArrayInto_datum_after (lib : Avro T Schema EncSt DecSt)
    (c : AvroByteArrayConverter Schema EncSt DecSt) (data : Option (List Byte))
    (dataSize : Nat) (datum : T) (hdata : data ≠ none) (hsize : dataSize ≠ 0) :
    (fromByteArrayInto lib c data dataSize datum).datum =
        (lib.decode c.decoder_.format (lib.decoderInit c.decoder_.format c.decoder_.state
          (memoryInputStream data dataSize)) datum).datum ∧
    (∀ what, (fromByteArrayInto lib c data dataSize datum).result = .error (.avro what) ↔
        (lib.decode c.decoder_.format (lib.decoderInit c.decoder_.format c.decoder_.state
          (memoryInputStream data dataSize)) datum).error = some what) ∧
    (∀ what, (lib.decode c.decoder_.format (lib.decoderInit c.decoder_.format
          c.decoder_.state (memoryInputStream data dataSize)) lib.defaultDatum).error
          = some what →
        (fromByteArray lib c data dataSize).1 = .error (.avro what)) := by
  have h : ¬ (data = none ∨ dataSize = 0) := by
    rintro (h | h)
    · exact hdata h
    · exact hsize h
  rw [fromByteArrayInto_of_valid lib c data dataSize datum h,
    fromByteArray_of_valid lib c data dataSize h]
  dsimp only
  refine ⟨rfl, ?_, ?_⟩
  · intro what
    cases (lib.decode c.decoder_.format (lib.decoderInit c.decoder_.format c.decoder_.state
      (memoryInputStream data dataSize)) datum).error <;> simp
  · intro what hw
    rw [hw]

end AvroByteArrayConverter

section Calls

variable {T Schema EncSt DecSt : Type}

/-- A conversion call, returning or throwing, keeps the dynamic type of both codecs. -/
theorem Call.apply_conversion_format (lib : Avro T Schema EncSt DecSt)
    (c : AvroByteArrayConverter Schema EncSt DecSt) (call : Call T Schema)
    (h : call.isConversion = true) :
    (call.apply lib c).encoder_.format = c.encoder_.format ∧
    (call.apply lib c).decoder_.format = c.decoder_.format := by
  cases call with
  | switchToJson schema => simp [Call.isConversion] at h
  | switchToBinary => simp [Call.isConversion] at h
  | toByteArray datum =>
    simp only [Call.apply, AvroByteArrayConverter.toByteArray_eq]
    split <;> exact ⟨rfl, rfl⟩
  | toByteArrayStream datum stream =>
    simp only [Call.apply, AvroByteArrayConverter.toByteArrayStream_eq]
    split <;> exact ⟨rfl, rfl⟩
  | fromByteArray data dataSize =>
    simp only [Call.apply]
    by_cases hg : data = none ∨ dataSize = 0
    · rw [AvroByteArrayConverter.fromByteArray_of_guard lib c data dataSize hg]
      exact ⟨rfl, rfl⟩
    · rw [AvroByteArrayConverter.fromByteArray_of_valid lib c data dataSize hg]
      exact ⟨rfl, rfl⟩
  | fromByteArrayInto data dataSize datum =>
    simp only [Call.apply]
    by_cases hg : data = none ∨ dataSize = 0
    · rw [AvroByteArrayConverter.fromByteArrayInto_of_guard lib c data dataSize datum hg]
      exact ⟨rfl, rfl⟩
    · rw [AvroByteArrayConverter.fromByteArrayInto_of_valid lib c data dataSize datum hg]
      exact ⟨rfl, rfl⟩

/-- From a converter whose codecs have one format, any calls lead to a converter whose
codecs both have the format requested last. -/
theorem foldl_apply_format (lib : Avro T Schema EncSt DecSt) (calls : List (Call T Schema)) :
    ∀ c : AvroByteArrayConverter Schema EncSt DecSt,
      c.decoder_.format = c.encoder_.format →
      (calls.foldl (Call.apply lib) c).encoder_.format
          = requestedFormat c.encoder_.format calls ∧
      (calls.foldl (Call.apply lib) c).decoder_.format
          = requestedFormat c.encoder_.format calls := by
  induction calls with
  | nil =>
    intro c hc
    exact ⟨rfl, hc⟩
  | cons call rest ih =>
    intro c hc
    rw [List.foldl_cons]
    cases call with
    | switchToJson schema =>
      exact ih (AvroByteArrayConverter.switchToJson lib c schema) rfl
    | switchToBinary =>
      exact ih (AvroByteArrayConverter.switchToBinary lib c) rfl
    | toByteArray datum =>
      have hk := Call.apply_conversion_format lib c (.toByteArray datum) rfl
      have := ih ((Call.toByteArray datum).apply lib c) (by rw [hk.1, hk.2, hc])
      rw [hk.1] at this
      exact this
    | toByteArrayStream datum stream =>
      have hk := Call.apply_conversion_format lib c (.toByteArrayStream datum stream) rfl
      have := ih ((Call.toByteArrayStream datum stream).apply lib c) (by rw [hk.1, hk.2, hc])
      rw [hk.1] at this
      exact this
    | fromByteArray data dataSize =>
      have hk := Call.apply_conversion_format lib c (.fromByteArray data dataSize) rfl
      have := ih ((Call.fromByteArray data dataSize).apply lib c) (by rw [hk.1, hk.2, hc])
      rw [hk.1] at this
      exact this
    | fromByteArrayInto data dataSize datum =>
      have hk := Call.apply_conversion_format lib c (.fromByteArrayInto data dataSize datum) rfl
      have := ih ((Call.fromByteArrayInto data dataSize datum).apply lib c)
        (by rw [hk.1, hk.2, hc])
      rw [hk.1] at this
      exact this

/-- Calls that are all conversions request no format. -/
theorem requestedFormat_of_conversions (calls : List (Call T Schema)) :
    ∀ current : Format Schema, (∀ call ∈ calls, call.isConversion = true) →
      requestedFormat current calls = current := by
  induction calls with
  | nil => intro current _; rfl
  | cons call rest ih =>
    intro current h
    have hrest : ∀ x ∈ rest, x.isConversion = true :=
      fun x hx => h x (List.mem_cons_of_mem _ hx)
    have hcall := h call (List.mem_cons_self _ _)
    cases call with
    | switchToJson schema => simp [Call.isConversion] at hcall
    | switchToBinary => simp [Call.isConversion] at hcall
    | toByteArray datum => exact ih current hrest
    | toByteArrayStream datum stream => exact ih current hrest
    | fromByteArray data dataSize => exact ih current hrest
    | fromByteArrayInto data dataSize datum => exact ih current hrest

/-- The requested format of a sequence is computed part by part. -/
theorem requestedFormat_append (pre post : List (Call T Schema)) :
    ∀ current : Format Schema,
      requestedFormat current (pre ++ post)
        = requestedFormat (requestedFormat current pre) post := by
  induction pre with
  | nil => intro current; rfl
  | cons call rest ih =>
    intro current
    cases call <;> exact ih _

/-- Claim C7: after construction and any sequence of calls, the encoder and the decoder
have the same format; it is binary when no switch was called and otherwise the format of
the most recent switch; a conversion call, returning or throwing, changes neither. -/
theorem format_invariant (lib : Avro T Schema EncSt DecSt) (calls : List (Call T Schema)) :
    (run lib calls).encoder_.format = (run lib calls).decoder_.format ∧
    ((∀ call ∈ calls, call.isConversion = true) →
        (run lib calls).encoder_.format = .binary) ∧
    (∀ pre post schema, calls = pre ++ Call.switchToJson schema :: post →
        (∀ call ∈ post, call.isConversion = true) →
        (run lib calls).encoder_.format = .json schema) ∧
    (∀ pre post, calls = pre ++ Call.switchToBinary :: post →
        (∀ call ∈ post, call.isConversion = true) →
        (run lib calls).encoder_.format = .binary) ∧
    (∀ call : Call T Schema, call.isConversion = true →
        (run lib (calls ++ [call])).encoder_.format = (run lib calls).encoder_.format ∧
        (run lib (calls ++ [call])).decoder_.format = (run lib calls).decoder_.format) := by
  have hrun := foldl_apply_format lib calls (AvroByteArrayConverter.new lib) rfl
  have henc : (run lib calls).encoder_.format = requestedFormat .binary calls := hrun.1
  have hdec : (run lib calls).decoder_.format = requestedFormat .binary calls := hrun.2
  refine ⟨by rw [henc, hdec], ?_, ?_, ?_, ?_⟩
  · intro h
    rw [henc, requestedFormat_of_conversions calls .binary h]
  · intro pre post schema hcalls hpost
    rw [henc, hcalls, requestedFormat_append]
    exact requestedFormat_of_conversions post (.json schema) hpost
  · intro pre post hcalls hpost
    rw [henc, hcalls, requestedFormat_append]
    exact requestedFormat_of_conversions post .binary hpost
  · intro call hcall
    have : run lib (calls ++ [call]) = call.apply lib (run lib calls) := by
      simp [run, List.foldl_append]
    rw [this]
    exact Call.apply_conversion_format lib (run lib calls) call hcall

end Calls

/-! ### The concrete codecs -/

/-- The codec of `Flags` round-trips every value in both formats. -/
theorem flagsLib_roundTrips (f : Format Unit) (v : Flags) : flagsLib.RoundTrips f v := by
  intro es ds
  obtain ⟨a, b⟩ := v
  cases f <;> cases a <;> cases b <;> exact ⟨rfl, rfl, rfl⟩

namespace AvroByteArrayConverter

variable {T Schema EncSt DecSt : Type}

/-- A memory input stream over a whole buffer holds the bytes of the buffer. -/
theorem memoryInputStream_buffer (bytes : List Byte) :
    memoryInputStream (some bytes) bytes.length = bytes := by
  simp [memoryInputStream]

/-- A length below 2^32 is passed as `dataSize` unchanged. -/
theorem toUInt32_of_lt (n : Nat) (h : n < 4294967296) : toUInt32 n = n :=
  Nat.mod_eq_of_lt h

/-- A by-value result is a record exactly when the decoder did not throw. -/
theorem toExcept_eq_ok_iff {D : Type} (r : DecodeResult D T) (v : T) :
    r.toExcept = .ok v ↔ r.error = none ∧ r.datum = v := by
  unfold DecodeResult.toExcept
  cases r.error <;> simp

/-- A by-value result is never the exception of the guard. -/
theorem toExcept_ne_KaaException {D : Type} (r : DecodeResult D T) (what : String) :
    r.toExcept ≠ .error (.KaaException what) := by
  unfold DecodeResult.toExcept
  cases r.error <;> simp

/-- Decoding a buffer whose length, as a `uint32_t`, is 0 is stopped by the guard. -/
theorem fromByteArray_buffer_rejected (lib : Avro T Schema EncSt DecSt)
    (c : AvroByteArrayConverter Schema EncSt DecSt) (bytes : List Byte) (n : Nat)
    (h : toUInt32 n = 0) :
    (fromByteArray lib c (some bytes) (toUInt32 n)).1
      = .error (.KaaException "null data to decode") := by
  rw [fromByteArray_of_guard lib c _ _ (Or.inr h)]

/-- Decoding a whole buffer of at least one and fewer than 2^32 bytes gives what the
decoder of the converter gives on those bytes. -/
theorem fromByteArray_buffer (lib : Avro T Schema EncSt DecSt)
    (c : AvroByteArrayConverter Schema EncSt DecSt) (bytes : List Byte)
    (hne : bytes.length ≠ 0) (hlt : bytes.length < 4294967296) :
    (fromByteArray lib c (some bytes) (toUInt32 bytes.length)).1
      = (lib.decoded c.decoder_.format c.decoder_.state bytes).toExcept := by
  have hg : ¬ ((some bytes : Option (List Byte)) = none ∨ bytes.length = 0) := by
    rintro (h | h)
    · exact Option.noConfusion h
    · exact hne h
  rw [toUInt32_of_lt _ hlt, fromByteArray_of_valid lib c _ _ hg, memoryInputStream_buffer]
  unfold Avro.decoded DecodeResult.toExcept
  dsimp only

/-- A buffer is returned whenever `avro::encode` does not throw. -/
theorem toByteArray_ok_of_encode (lib : Avro T Schema EncSt DecSt)
    (c : AvroByteArrayConverter Schema EncSt DecSt) (v : T)
    (henc : (lib.encode c.encoder_.format
      (lib.encoderInit c.encoder_.format c.encoder_.state) v).error = none) :
    (toByteArray lib c v).1
      = .ok { first := lib.emitted c.encoder_.format c.encoder_.state v
              second := (lib.emitted c.encoder_.format c.encoder_.state v).length } := by
  rw [toByteArray_eq, henc]

/-- Claim C10, as the code has it: a buffer returned by `toByteArray` in binary mode holds
the bytes the binary encoder emitted; handed to `fromByteArray` after
`switchToJson(schema)`, the length going through `uint32_t`, it is rejected with the
invalid-input `KaaException` when that length is 0, and a payload of at least one and
fewer than 2^32 bytes goes to the new textual decoder of `schema`: the call throws the
exception of that decoder when it throws, and returns the record it decoded when the
bytes happen to be a text it accepts. -/
theorem fromByteArray_after_switchToJson (lib : Avro T Schema EncSt DecSt)
    (c : AvroByteArrayConverter Schema EncSt DecSt) (v : T) (schema : Schema)
    (hbin : c.encoder_.format = .binary) :
    ((lib.encode .binary (lib.encoderInit .binary c.encoder_.state) v).error = none →
      ∃ buffer, (toByteArray lib c v).1 = .ok buffer) ∧
    (∀ buffer, (toByteArray lib c v).1 = .ok buffer →
      buffer.first = lib.emitted .binary c.encoder_.state v ∧
      buffer.second = buffer.first.length ∧
      (toUInt32 buffer.second = 0 →
        (fromByteArray lib (switchToJson lib (toByteArray lib c v).2 schema)
          (some buffer.first) (toUInt32 buffer.second)).1
          = .error (.KaaException "null data to decode")) ∧
      (buffer.second ≠ 0 → buffer.second < 4294967296 →
        (fromByteArray lib (switchToJson lib (toByteArray lib c v).2 schema)
          (some buffer.first) (toUInt32 buffer.second)).1
          = (lib.decoded (.json schema) (lib.jsonDecoder schema) buffer.first).toExcept ∧
        (∀ what, (fromByteArray lib (switchToJson lib (toByteArray lib c v).2 schema)
            (some buffer.first) (toUInt32 buffer.second)).1 = .error (.avro what) ↔
          (lib.decoded (.json schema) (lib.jsonDecoder schema) buffer.first).error
            = some what) ∧
        (∀ value, (fromByteArray lib (switchToJson lib (toByteArray lib c v).2 schema)
            (some buffer.first) (toUInt32 buffer.second)).1 = .ok value ↔
          (lib.decoded (.json schema) (lib.jsonDecoder schema) buffer.first).error = none ∧
          (lib.decoded (.json schema) (lib.jsonDecoder schema) buffer.first).datum
            = value))) := by
  refine ⟨?_, ?_⟩
  · intro henc
    rw [← hbin] at henc
    exact ⟨_, toByteArray_ok_of_encode lib c v henc⟩
  · intro buffer hb
    have hbuf := toByteArray_ok_buffer lib c v buffer hb
    rw [hbin] at hbuf
    subst hbuf
    refine ⟨rfl, rfl, ?_, ?_⟩
    · intro hzero
      exact fromByteArray_buffer_rejected lib _ _ _ hzero
    · intro hne hlt
      have h := fromByteArray_buffer lib (switchToJson lib (toByteArray lib c v).2 schema)
        _ hne hlt
      have hfmt : (switchToJson lib (toByteArray lib c v).2 schema).decoder_.format
          = .json schema := rfl
      have hst : (switchToJson lib (toByteArray lib c v).2 schema).decoder_.state
          = lib.jsonDecoder schema := rfl
      rw [hfmt, hst] at h
      refine ⟨h, ?_, ?_⟩
      · intro what
        rw [h]
        unfold DecodeResult.toExcept
        cases (lib.decoded (.json schema) (lib.jsonDecoder schema)
          (lib.emitted .binary c.encoder_.state v)).error <;> simp
      · intro value
        rw [h, toExcept_eq_ok_iff]

/-! ### Concrete inputs -/

/-- Claim C4 fails as stated: on a null pointer the exception of `fromByteArray` carries
the text "null data to decode", which is not "null or empty data to decode". -/
theorem fromByteArray_message_counterexample :
    (fromByteArray flagsLib (new flagsLib) none 0).1
      = .error (.KaaException "null data to decode") ∧
    (fromByteArray flagsLib (new flagsLib) none 0).1
      ≠ .error (.KaaException "null or empty data to decode") ∧
    (fromByteArrayInto flagsLib (new flagsLib) none 0 ⟨true, true⟩).result
      ≠ .error (.KaaException "null or empty data to decode") := by
  decide

/-- Claim C4 at a concrete input: a valid pointer with length 0. -/
theorem fromByteArray_invalid_input_message_witness :
    (fromByteArray flagsLib (new flagsLib) (some [1, 0]) 0).1
      = .error (.KaaException "null data to decode") ∧
    (fromByteArrayInto flagsLib (new flagsLib) (some [1, 0]) 0 ⟨true, true⟩).result
      = .error (.KaaException "null data to decode") :=
  fromByteArray_invalid_input_message flagsLib (new flagsLib) (some [1, 0]) 0 ⟨true, true⟩
    (Or.inr rfl)

/-- Claim C8 fails as stated: decoding the one-byte payload `[1]`, the encoding `[1, 0]`
of the record `a = true, b = false` cut by one byte, into the record `a = false, b = false`
throws at the second field and leaves the record with `a = true`. -/
theorem fromByteArrayInto_truncated_counterexample :
    (toByteArray flagsLib (new flagsLib) ⟨true, false⟩).1 = .ok ⟨[1, 0], 2⟩ ∧
    (fromByteArrayInto flagsLib (new flagsLib) (some [1]) 1 ⟨false, false⟩).result
      = .error (.avro "EOF reached") ∧
    (fromByteArrayInto flagsLib (new flagsLib) (some [1]) 1 ⟨false, false⟩).datum
      = ⟨true, false⟩ ∧
    (fromByteArrayInto flagsLib (new flagsLib) (some [1]) 1 ⟨false, false⟩).datum
      ≠ ⟨false, false⟩ := by
  decide

/-- Claim C8 as amended, at the truncated payload `[1]`. -/
theorem fromByteArrayInto_datum_after_witness :
    (fromByteArrayInto flagsLib (new flagsLib) (some [1]) 1 ⟨false, false⟩).datum
      = (Flags.decodeBinary [1] ⟨false, false⟩).datum ∧
    (fromByteArray flagsLib (new flagsLib) (some [1]) 1).1 = .error (.avro "EOF reached") :=
  ⟨(fromByteArrayInto_datum_after flagsLib (new flagsLib) (some [1]) 1 ⟨false, false⟩
      (by decide) (by decide)).1,
   (fromByteArrayInto_datum_after flagsLib (new flagsLib) (some [1]) 1 ⟨false, false⟩
      (by decide) (by decide)).2.2 "EOF reached" rfl⟩

/-- Claim C10 fails as stated, twice.  The binary encoding of a record without fields is
empty, so after `switchToJson` the decode is rejected by the guard with the invalid-input
`KaaException`, not by the decoder.  And the binary encoding of the `Entry` with
`a = -62` and a string of 17 bytes is, byte for byte, the text of the `Entry` with
`a = 1` and the string `xxxxx`: after `switchToJson` the textual decoder accepts it and
`fromByteArray` returns that record. -/
theorem fromByteArray_after_switchToJson_counterexample :
    (toByteArray emptyDataLib (new emptyDataLib) EmptyData.mk).1 = .ok ⟨[], 0⟩ ∧
    (fromByteArray emptyDataLib
      (switchToJson emptyDataLib
        (toByteArray emptyDataLib (new emptyDataLib) EmptyData.mk).2 ())
      (some []) (toUInt32 0)).1 = .error (.KaaException "null data to decode") ∧
    (¬ ∃ what, (fromByteArray emptyDataLib
      (switchToJson emptyDataLib
        (toByteArray emptyDataLib (new emptyDataLib) EmptyData.mk).2 ())
      (some []) (toUInt32 0)).1 = .error (.avro what)) ∧
    (toByteArray entryLib (new entryLib)
      ⟨-62, [97, 34, 58, 49, 44, 34, 98, 34, 58, 34, 120, 120, 120, 120, 120, 34, 125]⟩).1
      = .ok ⟨[123, 34, 97, 34, 58, 49, 44, 34, 98, 34, 58, 34, 120, 120, 120, 120, 120, 34,
          125], 19⟩ ∧
    (fromByteArray entryLib
      (switchToJson entryLib (toByteArray entryLib (new entryLib)
        ⟨-62, [97, 34, 58, 49, 44, 34, 98, 34, 58, 34, 120, 120, 120, 120, 120, 34, 125]⟩).2
        ())
      (some [123, 34, 97, 34, 58, 49, 44, 34, 98, 34, 58, 34, 120, 120, 120, 120, 120, 34,
        125]) (toUInt32 19)).1 = .ok ⟨1, [120, 120, 120, 120, 120]⟩ := by
  refine ⟨by decide, by decide, ?_, by decide, by decide⟩
  rintro ⟨what, h⟩
  rw [fromByteArray_of_guard emptyDataLib _ (some []) (toUInt32 0) (Or.inr rfl)] at h
  simp at h

/-- Claim C10 as amended, for the record `a = true, b = false`: its binary buffer
`[1, 0]` is no text of a `Flags`, and after `switchToJson` the call throws the exception
of the textual decoder. -/
theorem fromByteArray_after_switchToJson_witness :
    (toByteArray flagsLib (new flagsLib) ⟨true, false⟩).1 = .ok ⟨[1, 0], 2⟩ ∧
    (fromByteArray flagsLib
      (switchToJson flagsLib (toByteArray flagsLib (new flagsLib) ⟨true, false⟩).2 ())
      (some [1, 0]) (toUInt32 2)).1 = .error (.avro "Unexpected token") :=
  ⟨by decide,
   (((fromByteArray_after_switchToJson flagsLib (new flagsLib) ⟨true, false⟩ () rfl).2
      ⟨[1, 0], 2⟩ (by decide)).2.2.2 (by decide) (by decide)).2.1 "Unexpected token"
      |>.2 (by decide)⟩

end AvroByteArrayConverter

end kaa
